import Mathlib

/-!
Shallow embedding of the LLM-driven coding-assistant workflow engine
(`flow.py`, `utils/call_llm.py`, `utils/compile_ops.py`, `utils/search_ops.py`)
and proofs about its decision engine, edit sub-flow, validate/repair
sub-flow, caching and search utilities.

Python string primitives (`split`, `strip`, `lower`, `replace`, `in`)
are re-implemented over `List Char` by structural (fuel-based) recursion
so that every definition evaluates inside the kernel.
-/

/-! ### String primitives (model of Python `str` operations) -/

/-- Model of Python's substring membership `sub in s`, on char lists:
true iff `sub` occurs contiguously in `cs`. -/
def chContains (sub : List Char) : List Char → Bool
  | [] => sub.isEmpty
  | c :: rest => sub.isPrefixOf (c :: rest) || chContains sub rest

/-- Model of Python's `s in t` substring test on `String`. -/
def strContains (s sub : String) : Bool :=
  chContains sub.data s.data

/-- Fuel-based splitter on char lists: splits `cs` at every non-overlapping
occurrence of `sep` (leftmost first), like Python's `str.split(sep)` for a
non-empty `sep`.  `acc` is the reversed chunk read so far. -/
def chSplitGo (sep : List Char) : Nat → List Char → List Char → List (List Char)
  | 0, cs, acc => [acc.reverse ++ cs]
  | _ + 1, [], acc => [acc.reverse]
  | fuel + 1, c :: rest, acc =>
    if sep.isPrefixOf (c :: rest) then
      acc.reverse :: chSplitGo sep fuel (List.drop (sep.length - 1) rest) []
    else
      chSplitGo sep fuel rest (c :: acc)

/-- Model of Python's `s.split(sep)` for non-empty `sep`
(the guard mirrors the fact that the source only splits on literal fences
and separators, which are never empty). -/
def strSplitOn (s sep : String) : List String :=
  if sep.data.isEmpty then [s]
  else (chSplitGo sep.data (s.data.length + 1) s.data []).map (fun l => ⟨l⟩)

/-- Model of Python's `s.strip()`: drop whitespace from both ends. -/
def strTrim (s : String) : String :=
  ⟨((s.data.dropWhile Char.isWhitespace).reverse.dropWhile Char.isWhitespace).reverse⟩

/-- Model of Python's `s.rstrip()`: drop trailing whitespace. -/
def strRTrim (s : String) : String :=
  ⟨(s.data.reverse.dropWhile Char.isWhitespace).reverse⟩

/-- Model of Python's `s.lower()` (ASCII case folding). -/
def strToLower (s : String) : String :=
  ⟨s.data.map Char.toLower⟩

/-- Model of Python's `s.replace(old, new)` for non-empty `old`:
split on `old` and re-join with `new`. -/
def strReplace (s old new : String) : String :=
  if old.data.isEmpty then s
  else ⟨List.intercalate new.data (chSplitGo old.data (s.data.length + 1) s.data [])⟩


/-! ### `utils/call_llm.py` — LLM call with a file-backed cache

The cache file (a JSON object) is modelled as an association list whose
lookup returns the first binding, matching Python's dict lookup (the
model threads the cache state in place of the on-disk file).  The LLM
API itself is a black box, passed in as `llm : model → prompt → response`.
The third component of the result records whether the LLM was invoked. -/

def cacheKey (model prompt : String) : String :=
  model ++ ":" ++ prompt

def lookupCache : List (String × String) → String → Option String
  | [], _ => none
  | (k, v) :: rest, key => if k = key then some v else lookupCache rest key

def call_llm (llm : String → String → String) (cache : List (String × String))
    (prompt : String) (use_cache : Bool) (model : String) :
    String × List (String × String) × Bool :=
  if use_cache then
    match lookupCache cache (cacheKey model prompt) with
    | some v => (v, cache, false)
    | none =>
      let r := llm model prompt
      (r, (cacheKey model prompt, r) :: cache, true)
  else
    (llm model prompt, cache, true)


/-! ### `utils/compile_ops.py` — `validate_code`

`compile()`/`exec()` of arbitrary Python code cannot be embedded; what the
function does with their outcome can.  `ExecOutcome` is the abstract result
of compiling and then executing the candidate code: it either succeeds, or
raises a `SyntaxError`, an `ImportError`, or any other exception (with its
message and full formatted traceback). -/

inductive ExecOutcome where
  | ok
  | syntaxError (lineno offset : Int) (msg : String)
  | importError (msg : String)
  | otherError (msg : String) (trace : String)
deriving DecidableEq

/-- Libraries whose mention in an `ImportError` message downgrades it
to a warning (line 52 of `compile_ops.py`). -/
def importWarnLibs : List String := ["matplotlib", "display", "gui", "tkinter"]

/-- Terms whose mention in any other exception message downgrades it to a
display-related warning (line 62 of `compile_ops.py`). -/
def displayWarnTerms : List String := ["display", "gui", "x11", "tkinter", "qt", "show"]

def validate_code (outcome : ExecOutcome) : String × Bool :=
  match outcome with
  | .ok => ("Code syntax looks valid.", true)
  | .syntaxError l c m =>
    ("Code has syntax errors: Line " ++ toString l ++ ", Column " ++ toString c
      ++ ": " ++ m, false)
  | .importError m =>
    if importWarnLibs.any (fun lib => strContains (strToLower m) lib) then
      ("Code syntax looks valid (with display-related import warnings).", true)
    else
      ("Import error: " ++ m, false)
  | .otherError m tr =>
    if displayWarnTerms.any (fun t => strContains (strToLower m) t) then
      ("Code syntax looks valid (with display-related warnings).", true)
    else
      ("Code has runtime errors: " ++ tr, false)

/-! ### `utils/search_ops.py` — `grep_search`

`re.compile` is a black box: `reCompile pattern ignoreCase` returns `none`
exactly when the pattern is an invalid regex (`re.error`), and otherwise a
compiled pattern with its `search` (anywhere in the line) and `match`
(anchored at the start) predicates.  The filesystem walk is a list of
files, each carrying the pieces of path information the source computes
(`root`/`filename` from `os.walk`, `relpath` from `os.path.relpath`). -/

structure RePattern where
  searchIn : String → Bool
  matchStart : String → Bool

structure FSFile where
  root : String
  filename : String
  relpath : String
  lines : List String

structure GrepMatch where
  file : String
  line_number : Nat
  content : String
deriving DecidableEq

/-- Model of `_glob_to_regex`: comma-separated globs, each translated to an
anchored regex and compiled, invalid ones skipped. -/
def globToRegex (reCompile : String → Bool → Option RePattern)
    (patternStr : String) : List RePattern :=
  (strSplitOn patternStr ",").filterMap (fun glob =>
    let glob := strTrim glob
    if glob = "" then none
    else
      let regex := strReplace (strReplace (strReplace glob "." "\x5c.") "*" ".*") "?" "."
      reCompile ("^" ++ regex ++ "$") false)

/-- Model of `fetch_gitignore` post-processing inside `grep_search`
(lines 181–186): split the gitignore text, strip, drop empties. -/
def gitignorePatterns (gitignore : String) : List String :=
  ((strSplitOn gitignore "\n").map strTrim).filter (fun e => e ≠ "")

/-- One file's line scan (lines 219–236): enumerate lines from 1, record
each line the pattern matches, stop once 50 results have accumulated. -/
def grepFileGo (pat : RePattern) (path : String) :
    List String → Nat → List GrepMatch → List GrepMatch
  | [], _, acc => acc
  | l :: rest, i, acc =>
    if pat.searchIn l then
      let acc' := acc ++ [⟨path, i, strRTrim l⟩]
      if 50 ≤ acc'.length then acc' else grepFileGo pat path rest (i + 1) acc'
    else
      grepFileGo pat path rest (i + 1) acc

/-- The directory walk (lines 201–242): skip files filtered out by the
include/exclude/gitignore patterns, scan the rest, stop at 50 results. -/
def grepWalkGo (pat : RePattern) (incRs excRs gitRs : List RePattern) :
    List FSFile → List GrepMatch → List GrepMatch
  | [], acc => acc
  | f :: rest, acc =>
    if !incRs.isEmpty && !incRs.any (fun r => r.matchStart f.filename) then
      grepWalkGo pat incRs excRs gitRs rest acc
    else if excRs.any (fun r => r.matchStart f.filename) then
      grepWalkGo pat incRs excRs gitRs rest acc
    else if gitRs.any (fun r => r.matchStart f.relpath || r.matchStart f.filename) then
      grepWalkGo pat incRs excRs gitRs rest acc
    else
      let acc' := grepFileGo pat (f.root ++ "/" ++ f.filename) f.lines 1 acc
      if 50 ≤ acc'.length then acc' else grepWalkGo pat incRs excRs gitRs rest acc'

def grep_search (reCompile : String → Bool → Option RePattern) (files : List FSFile)
    (gitignore : String) (query : String) (case_sensitive : Bool)
    (include_pattern exclude_pattern : Option String) :
    List GrepMatch × Bool :=
  let forbidden := gitignorePatterns gitignore
  let gitRs :=
    if forbidden ≠ [] then globToRegex reCompile (String.intercalate "," forbidden) else []
  match reCompile query (!case_sensitive) with
  | none => ([], false)
  | some pat =>
    let incRs := match include_pattern with
      | some p => if p = "" then [] else globToRegex reCompile p
      | none => []
    let excRs := match exclude_pattern with
      | some p => if p = "" then [] else globToRegex reCompile p
      | none => []
    (grepWalkGo pat incRs excRs gitRs files [], true)

/-! ### `flow.py` — shared state and history entries

The shared dict threaded through the flow; `params` and `result` mappings
are modelled per tool.  The `timestamp` (Python `datetime.now()`) is an
input of the appending step. -/

/-- Parameters of a fix step: `FixCodeNode.prep` bundles the last entry's
`code_content` param with its result's `compilation_errors`. -/
structure FixPrep where
  code_content : String
  compilation_errors : String
deriving DecidableEq

/-- Normalized result mappings written back into a history entry, one
variant per Action Executor that writes one. -/
inductive EntryResult where
  | readFileResult (success : Bool) (content : String)
  | grepResult (success : Bool) (matchList : List GrepMatch)
  | listDirResult (success : Bool) (tree_visualization : String)
  | editResult (success : Bool) (operations : Nat) (reasoning : String)
  | compileResult (code_content : String) (success : Bool) (compilation_errors : String)
  | fixResult (prep : FixPrep) (success : Bool) (compilation_errors : String)
deriving DecidableEq

set_option synthInstance.maxHeartbeats 400000

structure HistoryEntry where
  tool : String
  reason : String
  params : List (String × String)
  result : Option EntryResult
  file_content : Option String
  timestamp : String
deriving DecidableEq

structure Shared where
  user_query : String
  working_dir : String
  history : List HistoryEntry
deriving DecidableEq

/-- Python's `history[-1][...] = ...`: rewrite the last element of a list,
leave an empty list unchanged (the source guards with
`if history := shared.get("history", [])`). -/
def updateLast (f : HistoryEntry → HistoryEntry) : List HistoryEntry → List HistoryEntry
  | [] => []
  | [e] => [f e]
  | e :: rest => e :: updateLast f rest

/-- An entry is open while its result is unset. -/
def isOpen (e : HistoryEntry) : Bool :=
  e.result.isNone

/-- Number of open entries in a shared state's history. -/
def openCount (s : Shared) : Nat :=
  (s.history.filter isOpen).length

/-! ### `flow.py` — `MainDecisionAgent` (Decision Engine)

The LLM and `yaml.safe_load` are black boxes.  `parseYaml` returns `none`
when `yaml.safe_load` raises `yaml.YAMLError`, and otherwise the parsed
mapping with each required key present or absent. -/

/-- A parsed YAML decision mapping, keys optional as in a Python dict. -/
structure DecisionDoc where
  tool : Option String
  reason : Option String
  params : Option (List (String × String))

/-- A validated decision. -/
structure Decision where
  tool : String
  reason : String
  params : List (String × String)
deriving DecidableEq

/-- YAML block extraction shared by `MainDecisionAgent.exec` (lines 281–299,
`wholeFallback := true`: the final `else` uses the whole response) and
`AnalyzeAndPlanNode.exec` (lines 608–622, `wholeFallback := false`: no
`else`, `yaml_content` stays empty).  In the source each branch first tests
`"```yaml" in response` and then splits; since membership holds exactly when
the split has a second part, both guards collapse into one `match`. -/
def extractYamlContent (response : String) (wholeFallback : Bool) : String :=
  match strSplitOn response "```yaml" with
  | _ :: second :: _ => strTrim (List.headD (strSplitOn second "```") second)
  | _ =>
    match strSplitOn response "```yml" with
    | _ :: second :: _ => strTrim (List.headD (strSplitOn second "```") second)
    | _ =>
      match strSplitOn response "```" with
      | _ :: second :: _ => strTrim second
      | _ => if wholeFallback then strTrim response else ""

/-- `MainDecisionAgent.exec` response handling (lines 270–323): a
response containing a ```python fence short-circuits to a `validate_code`
decision; otherwise a YAML block is extracted, parsed and validated.
`.error` models the `ValueError`s / failed `assert`s the source raises. -/
def mainDecisionExec (parseYaml : String → Option DecisionDoc) (response : String) :
    Except String Decision :=
  match strSplitOn response "```python" with
  | _ :: second :: _ =>
    let python_content := strTrim (List.headD (strSplitOn second "```") second)
    let python_code := strReplace python_content "```python" ""
    .ok ⟨"validate_code", "validate_code", [("code_content", python_code)]⟩
  | _ =>
    let yaml_content := extractYamlContent response true
    if yaml_content ≠ "" then
      match parseYaml yaml_content with
      | none => .error "Invalid YAML format in LLM response"
      | some doc =>
        match doc.tool with
        | none => .error "Tool name is missing"
        | some tool =>
          match doc.reason with
          | none => .error "Reason is missing"
          | some reason =>
            if tool ≠ "finish" then
              match doc.params with
              | none => .error "Parameters are missing"
              | some ps => .ok ⟨tool, reason, ps⟩
            else
              .ok ⟨tool, reason, []⟩
    else
      .error "No YAML object found in response"

/-- `MainDecisionAgent.post` (lines 325–344): append a pending history
entry with `result = None`, return the tool name as routing label. -/
def mainDecisionPost (shared : Shared) (d : Decision) (ts : String) : Shared :=
  { shared with
    history := shared.history ++ [⟨d.tool, d.reason, d.params, none, none, ts⟩] }

/-- One decision round: run `exec` on the LLM response; an exception in
`exec` propagates before `post` runs, so the shared state is returned
unchanged alongside the error. -/
def mainDecisionStep (parseYaml : String → Option DecisionDoc) (shared : Shared)
    (response ts : String) : Shared × Except String String :=
  match mainDecisionExec parseYaml response with
  | .error e => (shared, .error e)
  | .ok d => (mainDecisionPost shared d ts, .ok d.tool)

/-! ### `flow.py` — `CompileFileNode` and `FixCodeNode` (Validate/Repair) -/

/-- `CompileFileNode.exec` (lines 939–944): run `validate_code` and turn
the boolean into a routing label. -/
def compileFileExec (outcome : ExecOutcome) : String × String :=
  let (errors, success) := validate_code outcome
  if success then ("compilation_success", errors) else ("compilation_error", errors)

/-- `CompileFileNode.post` (lines 946–953): write the result into the last
history entry and return `exec_res[0]` as routing label. -/
def compileFilePost (shared : Shared) (prep_res : String) (exec_res : String × String) :
    Shared × String :=
  ({ shared with
      history := updateLast (fun e =>
        { e with result := some (.compileResult prep_res
            (exec_res.1 == "compilation_success") exec_res.2) }) shared.history },
    exec_res.1)

/-- `FixCodeNode.exec` (lines 973–986) returns the raw LLM response string
(despite its `tuple[str, bool]` annotation); `post` (lines 988–995) then
indexes into it: `exec_res[0]` and `exec_res[1]` are the first and second
*characters* of the response, and a response shorter than two characters
raises `IndexError`. -/
def fixCodePost (shared : Shared) (prep : FixPrep) (response : String) :
    Except String (Shared × String) :=
  match response.data with
  | c₀ :: c₁ :: _ =>
    .ok
      ({ shared with
          history := updateLast (fun e =>
            { e with result := some (.fixResult prep
                (String.mk [c₀] == "compilation_success") (String.mk [c₁])) }) shared.history },
        String.mk [c₀])
  | _ => .error "IndexError: string index out of range"

/-! ### `flow.py` — `create_main_flow` graph (lines 1032–1066)

The node graph.  Edge lookup follows the spec's orchestrator contract
(§4.1/§4.5): the routing label returned by a node's `post` is looked up in
the node's successor table; `>>` registers the unlabeled (`"default"`)
edge, used when `post` returns no label.  (The `Flow`/`Node` classes come
from the external `pocketflow` package, which is not part of this
repository; the lookup semantics is modelled from the spec.) -/

inductive FlowNode where
  | mainAgent
  | readAction
  | grepAction
  | listDirAction
  | editAgent
  | createNewFile
  | docstringNode
  | formatResponse
  | compileFileNode
  | fixCodeNode
deriving DecidableEq

/-- The successor table wired by `create_main_flow`. -/
def mainFlowSuccessors : FlowNode → String → Option FlowNode
  | .mainAgent, a =>
    if a = "validate_code" then some .compileFileNode
    else if a = "create_new_file" then some .createNewFile
    else if a = "read_file" then some .readAction
    else if a = "grep_search" then some .grepAction
    else if a = "list_dir" then some .listDirAction
    else if a = "edit_file" then some .editAgent
    else if a = "search_api_docstrings_regex" then some .docstringNode
    else if a = "finish" then some .formatResponse
    else none
  | .compileFileNode, a =>
    if a = "compilation_error" then some .fixCodeNode
    else if a = "compilation_success" then some .mainAgent
    else none
  | .fixCodeNode, a => if a = "default" then some .compileFileNode else none
  | .readAction, a => if a = "default" then some .mainAgent else none
  | .grepAction, a => if a = "default" then some .mainAgent else none
  | .listDirAction, a => if a = "default" then some .mainAgent else none
  | .editAgent, a => if a = "default" then some .mainAgent else none
  | .createNewFile, a => if a = "default" then some .mainAgent else none
  | .docstringNode, a => if a = "default" then some .mainAgent else none
  | .formatResponse, _ => none

/-! ### `flow.py` — `AnalyzeAndPlanNode` (Edit Sub-Flow, plan step)

`exec(params, retries=DEFAULT_RETRIES)` calls the LLM
(`use_cache=retries == DEFAULT_RETRIES`), extracts a YAML block (with *no*
whole-response fallback), parses it and validates the planned operations;
when no YAML content is found it recurses with `retries - 1`.  The LLM is
an oracle indexed by the attempt number, and the returned trace records
the `use_cache` flag of every `call_llm` invocation made. -/

/-- `DEFAULT_RETRIES` (line 23 of `flow.py`). -/
def DEFAULT_RETRIES : Nat := 2

/-- One planned line-range edit operation as parsed from YAML; keys
optional as in a Python dict (YAML integers may be negative). -/
structure PlanOp where
  start_line : Option Int
  end_line : Option Int
  replacement : Option String
deriving DecidableEq

/-- The `operations` value of a parsed plan: either not a list at all, or a
list of operation mappings. -/
inductive OpsVal where
  | notList
  | opsList (ops : List PlanOp)
deriving DecidableEq

/-- A parsed YAML plan mapping, keys optional as in a Python dict. -/
structure PlanDoc where
  reasoning : Option String
  operations : Option OpsVal

/-- The per-operation `assert` chain of `AnalyzeAndPlanNode.exec`
(lines 636–644): required keys, bounds in `[1, total_lines]`,
`start_line ≤ end_line`.  The first failing assertion aborts. -/
def validatePlanOps (total_lines : Nat) : List PlanOp → Except String Unit
  | [] => .ok ()
  | op :: rest =>
    match op.start_line with
    | none => .error "start_line is missing"
    | some sl =>
      match op.end_line with
      | none => .error "end_line is missing"
      | some el =>
        match op.replacement with
        | none => .error "replacement is missing"
        | some _ =>
          if ¬(1 ≤ sl ∧ sl ≤ (total_lines : Int)) then
            .error ("start_line out of range: " ++ toString sl)
          else if ¬(1 ≤ el ∧ el ≤ (total_lines : Int)) then
            .error ("end_line out of range: " ++ toString el)
          else if ¬(sl ≤ el) then
            .error ("start_line > end_line: " ++ toString sl ++ " > " ++ toString el)
          else
            validatePlanOps total_lines rest

/-- One attempt's response handling inside `AnalyzeAndPlanNode.exec`:
`some` is the settled outcome (parse/validate result, retries irrelevant),
`none` means no YAML content was found, which triggers the retry branch. -/
def analyzeAttempt (parsePlan : String → Option PlanDoc) (total_lines : Nat)
    (response : String) : Option (Except String (String × List PlanOp)) :=
  let yaml_content := extractYamlContent response false
  if yaml_content ≠ "" then
    some <|
      match parsePlan yaml_content with
      | none => .error "yaml.YAMLError: invalid YAML"
      | some doc =>
        match doc.reasoning with
        | none => .error "Reasoning is missing"
        | some reasoning =>
          match doc.operations with
          | none => .error "Operations are missing"
          | some .notList => .error "Operations are not a list"
          | some (.opsList ops) =>
            match validatePlanOps total_lines ops with
            | .error e => .error e
            | .ok _ => .ok (reasoning, ops)
  else
    none

/-- `AnalyzeAndPlanNode.exec` (lines 543–650).  `llm n` is the LLM response
on attempt `n`; `parsePlan` models `yaml.safe_load` (`none` = `YAMLError`,
which this node does *not* catch).  Returns the validated
`(reasoning, operations)` or the propagated error, together with the
`use_cache` flag of each LLM call made (`retries == DEFAULT_RETRIES`,
i.e. `true` only on the first attempt). -/
def analyzeExec (llm : Nat → String) (parsePlan : String → Option PlanDoc)
    (file_content : String) : (retries : Nat) → Except String (String × List PlanOp) × List Bool
  | 0 =>
    let use_cache := 0 == DEFAULT_RETRIES
    match analyzeAttempt parsePlan (strSplitOn file_content "\n").length
        (llm (DEFAULT_RETRIES - 0)) with
    | some res => (res, [use_cache])
    | none => (.error "No YAML object found in response", [use_cache])
  | r + 1 =>
    let use_cache := (r + 1) == DEFAULT_RETRIES
    match analyzeAttempt parsePlan (strSplitOn file_content "\n").length
        (llm (DEFAULT_RETRIES - (r + 1))) with
    | some res => (res, [use_cache])
    | none =>
      let (res, calls) := analyzeExec llm parsePlan file_content r
      (res, use_cache :: calls)

/-! ### `flow.py` — `ApplyChangesNode` (Edit Sub-Flow, apply step) -/

/-- A planned edit operation as stored in `shared["edit_operations"]`
(validated, so line numbers are plain naturals here). -/
structure EditOp where
  start_line : Nat
  end_line : Nat
  replacement : String
deriving DecidableEq

/-- `ApplyChangesNode.prep` sorting (line 671): Python's
`sorted(ops, key=lambda op: op["start_line"], reverse=True)` is the stable
descending sort by `start_line`; stable sorting is uniquely determined by
the comparator, so `List.insertionSort` with `b.start_line ≤ a.start_line`
produces the same list. -/
def sortOpsDesc (ops : List EditOp) : List EditOp :=
  List.insertionSort (fun a b => b.start_line ≤ a.start_line) ops

/-- Modelled from the spec: `replace_file` (`utils/replace_file.py` is not
in the source tree, only its caller is).  §6 gives
`replace(path, startLine, endLine, content) → (success, message)` and §4.4
fixes the semantics: replace the 1-indexed inclusive line range
`[startLine, endLine]` of the file with the content's lines. -/
def replaceLines (lines : List String) (start_line end_line : Nat) (content : String) :
    List String :=
  lines.take (start_line - 1) ++ strSplitOn content "\n" ++ lines.drop end_line

/-- `ApplyChangesNode` execution: the `BatchNode` runs `exec` (which calls
`replace_file` on the target file) once per operation, in `prep`'s order. -/
def applyOps (lines : List String) (ops : List EditOp) : List String :=
  ops.foldl (fun ls op => replaceLines ls op.start_line op.end_line op.replacement) lines

/-- The full apply step: sort descending, then apply bottom-to-top. -/
def applyEdit (lines : List String) (ops : List EditOp) : List String :=
  applyOps lines (sortOpsDesc ops)

/-! ### Equality instances and concrete scenarios used by the theorems -/

deriving instance DecidableEq for Except

/-- The last history entry's result, if any. -/
def lastResult (s : Shared) : Option EntryResult :=
  match s.history.getLast? with
  | some e => e.result
  | none => none

/-- The python-code payload `MainDecisionAgent.exec` builds when it
short-circuits on a ```python fence (lines 272–275): text between the first
```python and the next fence, stripped (the trailing `replace` mirrors
line 275, a no-op on the already-cut block). -/
def extractPythonCode (response : String) : String :=
  match strSplitOn response "```python" with
  | _ :: second :: _ =>
    strReplace (strTrim (List.headD (strSplitOn second "```") second)) "```python" ""
  | _ => ""

/-- A three-line target file for the edit-planning boundary scenario. -/
def c1_file : String := "line1\nline2\nline3"

/-- A planning response carrying one YAML block. -/
def c1_response : String := "```yaml\nplan\n```"

/-- A parse oracle mapping that block to the pure-append operation
`{start_line: 4, end_line: 4, replacement: X}` on the three-line file. -/
def c1_parse : String → Option PlanDoc := fun s =>
  if s = "plan" then
    some ⟨some "reasoning", some (.opsList [⟨some 4, some 4, some "X"⟩])⟩
  else none

/-- A decision-engine response whose only content is a fenced `yaml` block. -/
def c4_response : String := "```yaml\ntool: finish\nreason: done\n```"

/-- A parse oracle reading that block as the mapping
`{tool: finish, reason: done}`. -/
def c4_parse : String → Option DecisionDoc := fun s =>
  if s = "tool: finish\nreason: done" then some ⟨some "finish", some "done", none⟩ else none

/-- A planning response whose YAML block parses but lacks `operations`. -/
def c5_response : String := "```yaml\nreasoning: hi\n```"

/-- A parse oracle reading that block as `{reasoning: hi}` (no operations). -/
def c5_parse : String → Option PlanDoc := fun s =>
  if s = "reasoning: hi" then some ⟨some "hi", none⟩ else none

/-- A decision routing into the validate/repair sub-flow. -/
def c3_decision : Decision := ⟨"validate_code", "validate_code", [("code_content", "import foo")]⟩

/-- Shared state at the start of the validate/repair scenario. -/
def c3_s0 : Shared := ⟨"fix my code", "/tmp/w", []⟩

/-- After the Decision Engine appends the pending entry. -/
def c3_s1 : Shared := mainDecisionPost c3_s0 c3_decision "t1"

/-- The validation outcome: the candidate code raises an `ImportError`. -/
def c3_exec : String × String := compileFileExec (.importError "No module named foo")

/-- After `CompileFileNode.post` writes the first result. -/
def c3_s2 : Shared := (compileFilePost c3_s1 "import foo" c3_exec).1

/-- `FixCodeNode.prep` output in this scenario. -/
def c3_prep : FixPrep := ⟨"import foo", c3_exec.2⟩

/-- After `FixCodeNode.post` writes the same entry's result again. -/
def c3_s3 : Shared :=
  match fixCodePost c3_s2 c3_prep "fixed code" with
  | .ok (s, _) => s
  | .error _ => c3_s2

/-- The six-line example file of the edit-ordering scenario (spec §8). -/
def c6_file : List String := ["l1", "l2", "l3", "l4", "l5", "l6"]

/-! ### Facts about the string primitives -/

theorem chSplitGo_ne_nil (sep : List Char) :
    ∀ (fuel : Nat) (cs acc : List Char), chSplitGo sep fuel cs acc ≠ [] := by
  intro fuel
  induction fuel with
  | zero => intro cs acc; simp [chSplitGo]
  | succ n ih =>
    intro cs acc
    cases cs with
    | nil => simp [chSplitGo]
    | cons c rest =>
      simp only [chSplitGo]
      split
      · simp
      · exact ih rest (c :: acc)

theorem chSplitGo_of_not_contains (sep : List Char) :
    ∀ (cs : List Char) (fuel : Nat) (acc : List Char),
      chContains sep cs = false → chSplitGo sep fuel cs acc = [acc.reverse ++ cs] := by
  intro cs
  induction cs with
  | nil =>
    intro fuel acc _
    cases fuel <;> simp [chSplitGo]
  | cons c rest ih =>
    intro fuel acc h
    simp only [chContains, Bool.or_eq_false_iff] at h
    cases fuel with
    | zero => simp [chSplitGo]
    | succ n =>
      simp only [chSplitGo, h.1]
      rw [ih n (c :: acc) h.2]
      simp

/-- If a response does not contain `sep`, splitting on `sep` leaves it whole. -/
theorem strSplitOn_of_not_contains (s sep : String) (h : strContains s sep = false) :
    strSplitOn s sep = [s] := by
  unfold strSplitOn
  split
  · rfl
  · rw [chSplitGo_of_not_contains sep.data s.data (s.data.length + 1) [] h]
    simp

/-- A string containing `sub₂` contains every prefix `sub₁` of `sub₂`. -/
theorem chContains_of_isPrefixOf (sub₁ sub₂ : List Char)
    (hp : sub₁.isPrefixOf sub₂ = true) :
    ∀ cs, chContains sub₂ cs = true → chContains sub₁ cs = true := by
  intro cs
  induction cs with
  | nil =>
    intro h
    simp only [chContains, List.isEmpty_iff] at h ⊢
    subst h
    simpa [List.isPrefixOf_iff_prefix, List.prefix_nil] using hp
  | cons c rest ih =>
    intro h
    simp only [chContains, Bool.or_eq_true] at h ⊢
    rcases h with h | h
    · left
      rw [List.isPrefixOf_iff_prefix] at hp h ⊢
      exact hp.trans h
    · right; exact ih h

/-- If `sep` occurs in `cs` then splitting `cs` on `sep` (with enough fuel)
produces at least two chunks. -/
theorem chSplitGo_of_contains (sep : List Char) (hsep : sep ≠ []) :
    ∀ (cs : List Char) (fuel : Nat) (acc : List Char), cs.length < fuel →
      chContains sep cs = true →
      1 < (chSplitGo sep fuel cs acc).length := by
  intro cs
  induction cs with
  | nil =>
    intro fuel acc hf h
    simp only [chContains, List.isEmpty_iff] at h
    exact absurd h hsep
  | cons c rest ih =>
    intro fuel acc hf h
    cases fuel with
    | zero => simp at hf
    | succ n =>
      simp only [chContains, Bool.or_eq_true] at h
      simp only [chSplitGo]
      by_cases hpre : sep.isPrefixOf (c :: rest) = true
      · simp only [hpre, if_true, List.length_cons]
        have := chSplitGo_ne_nil sep n (List.drop (sep.length - 1) rest) []
        have hlen : 0 < (chSplitGo sep n (List.drop (sep.length - 1) rest) []).length :=
          List.length_pos.mpr this
        omega
      · simp only [hpre, if_false]
        rcases h with h | h
        · exact absurd h hpre
        · exact ih n (c :: acc) (by simp at hf ⊢; omega) h

/-- If a response contains `sep`, splitting on `sep` has at least two parts. -/
theorem strSplitOn_two_parts (s sep : String) (hne : sep.data.isEmpty = false)
    (h : strContains s sep = true) :
    ∃ p₀ p₁ ps, strSplitOn s sep = p₀ :: p₁ :: ps := by
  unfold strSplitOn
  rw [hne]
  simp only [Bool.false_eq_true, if_false]
  have := chSplitGo_of_contains sep.data (by simpa [List.isEmpty_iff] using hne)
    s.data (s.data.length + 1) [] (by omega) h
  rcases hsp : chSplitGo sep.data (s.data.length + 1) s.data [] with _ | ⟨a, _ | ⟨b, l⟩⟩
  · rw [hsp] at this; simp at this
  · rw [hsp] at this; simp at this
  · exact ⟨⟨a⟩, ⟨b⟩, l.map (fun x => ⟨x⟩), by simp⟩

/-- A response without any code fence yields no YAML content (only the
decision engine, with its whole-response fallback, gets the trimmed text). -/
theorem extractYaml_of_no_fence (r : String) (h : strContains r "```" = false) :
    ∀ wf, extractYamlContent r wf = (if wf then strTrim r else "") := by
  intro wf
  have hyaml : strContains r "```yaml" = false := by
    cases hz : strContains r "```yaml"
    · rfl
    · exact absurd (chContains_of_isPrefixOf "```".data "```yaml".data (by decide) r.data hz)
        (by rw [strContains] at h; simp [strContains, h])
  have hyml : strContains r "```yml" = false := by
    cases hz : strContains r "```yml"
    · rfl
    · exact absurd (chContains_of_isPrefixOf "```".data "```yml".data (by decide) r.data hz)
        (by rw [strContains] at h; simp [strContains, h])
  unfold extractYamlContent
  rw [strSplitOn_of_not_contains r "```yaml" hyaml, strSplitOn_of_not_contains r "```yml" hyml,
    strSplitOn_of_not_contains r "```" h]

/-- Two cache keys with the same prompt and different models differ:
`model ++ ":" ++ prompt` is injective in the model. -/
theorem cacheKey_inj (m₁ m₂ p : String) (h : cacheKey m₁ p = cacheKey m₂ p) :
    m₁ = m₂ := by
  unfold cacheKey at h
  have hd := congrArg String.data h
  simp only [String.data_append, List.append_assoc] at hd
  exact String.ext (List.append_cancel_right hd)

/-- Rewriting the last history entry preserves the length. -/
theorem updateLast_length (f : HistoryEntry → HistoryEntry) :
    ∀ l, (updateLast f l).length = l.length := by
  intro l
  induction l with
  | nil => rfl
  | cons e rest ih =>
    cases rest with
    | nil => rfl
    | cons e₂ r₂ => simp only [updateLast, List.length_cons] at ih ⊢; omega

/-- Rewriting the last history entry leaves every earlier entry unchanged. -/
theorem updateLast_dropLast (f : HistoryEntry → HistoryEntry) :
    ∀ l, (updateLast f l).dropLast = l.dropLast := by
  intro l
  induction l with
  | nil => rfl
  | cons e rest ih =>
    cases rest with
    | nil => rfl
    | cons e₂ r₂ =>
      have hlen := updateLast_length f (e₂ :: r₂)
      simp only [updateLast] at ih ⊢
      cases hu : updateLast f (e₂ :: r₂) with
      | nil => rw [hu] at hlen; simp at hlen
      | cons u us =>
        rw [hu] at ih
        simp [List.dropLast_cons₂, ih]

/-! ### The claims -/

/-- C1: the Edit Sub-Flow plan step does *not* treat
`start_line = end_line = total_lines + 1` as a pure append.  On a
three-line file, the planned operation `{4, 4, X}` (the convention the
node's own prompt documents for appends) is rejected by the bounds
validation `1 ≤ start_line ≤ total_lines` with
`start_line out of range: 4`, after a single (cached) LLM call. -/
theorem c1_append_plan_rejected :
    (strSplitOn c1_file "\n").length = 3 ∧
    analyzeExec (fun _ => c1_response) c1_parse c1_file DEFAULT_RETRIES
      = (.error "start_line out of range: 4", [true]) := by
  decide

/-- C2: the `Error → Fixing → Validating` loop is broken.  Validation
failure does route to the fix node, and the graph wires the fix node's
unlabeled (`"default"`) edge back to validation; but `FixCodeNode.post`
returns the first *character* of the LLM response (its `exec` returns a
plain string where a `(action, errors)` tuple is expected), so on the fix
response `"import math"` the routing label is `"i"`, which matches no
outgoing edge — control never returns to the validating node. -/
theorem c2_fix_node_never_routes_back :
    mainFlowSuccessors .compileFileNode "compilation_error" = some .fixCodeNode ∧
    mainFlowSuccessors .fixCodeNode "default" = some .compileFileNode ∧
    fixCodePost ⟨"q", "w", []⟩ ⟨"code", "errs"⟩ "import math"
      = .ok (⟨"q", "w", []⟩, "i") ∧
    mainFlowSuccessors .fixCodeNode "i" = none := by
  decide

/-- C3 counterexample: in the validate/repair sub-flow the open-entry
invariant fails.  After the Decision Engine appends the `validate_code`
entry (one open entry), `CompileFileNode.post` closes it — leaving *zero*
open entries while the run continues — and `FixCodeNode.post` then writes
the same entry's `result` a second time, with a different value. -/
theorem c3_open_invariant_violated :
    openCount c3_s1 = 1 ∧
    (compileFilePost c3_s1 "import foo" c3_exec).2 = "compilation_error" ∧
    openCount c3_s2 = 0 ∧
    c3_s2.history.length = 1 ∧
    (lastResult c3_s2).isSome = true ∧
    (lastResult c3_s3).isSome = true ∧
    lastResult c3_s3 ≠ lastResult c3_s2 := by
  decide

/-- C3 (amended): every executor write goes only into the most recently
appended entry — appending a decision entry to an all-closed history makes
exactly that entry open, and both `CompileFileNode.post` and
`FixCodeNode.post` preserve the history length and every entry before the
last — but within the validate/fix loop that last entry's `result` is
overwritten on each pass rather than written at most once. -/
theorem c3_writes_target_last_entry (s : Shared) (d : Decision) (ts cc : String)
    (er : String × String) (prep : FixPrep) (resp : String)
    (hclosed : ∀ e ∈ s.history, isOpen e = false) :
    (openCount (mainDecisionPost s d ts) = 1
      ∧ (mainDecisionPost s d ts).history.getLast?
          = some ⟨d.tool, d.reason, d.params, none, none, ts⟩)
    ∧ ((compileFilePost s cc er).1.history.dropLast = s.history.dropLast
      ∧ (compileFilePost s cc er).1.history.length = s.history.length)
    ∧ (∀ s' act, fixCodePost s prep resp = .ok (s', act) →
        s'.history.dropLast = s.history.dropLast
          ∧ s'.history.length = s.history.length) := by
  refine ⟨⟨?_, ?_⟩, ⟨?_, ?_⟩, ?_⟩
  · have hnil : s.history.filter isOpen = [] := by
      rw [List.filter_eq_nil_iff]
      intro a ha
      simp [hclosed a ha]
    simp [openCount, mainDecisionPost, List.filter_append, hnil, isOpen]
  · simp [mainDecisionPost]
  · simp [compileFilePost, updateLast_dropLast]
  · simp [compileFilePost, updateLast_length]
  · intro s' act hfix
    unfold fixCodePost at hfix
    rcases hr : resp.data with _ | ⟨c₀, _ | ⟨c₁, cs⟩⟩ <;> rw [hr] at hfix
    · simp at hfix
    · simp at hfix
    · simp only [Except.ok.injEq, Prod.mk.injEq] at hfix
      obtain ⟨hs, _⟩ := hfix
      subst hs
      simp [updateLast_dropLast, updateLast_length]

/-- C3 witness: the amended statement at a concrete run state. -/
theorem c3_writes_target_last_entry_witness :
    (openCount (mainDecisionPost c3_s0 c3_decision "t1") = 1
      ∧ (mainDecisionPost c3_s0 c3_decision "t1").history.getLast?
          = some ⟨c3_decision.tool, c3_decision.reason, c3_decision.params, none, none, "t1"⟩)
    ∧ ((compileFilePost c3_s0 "import foo" c3_exec).1.history.dropLast
          = c3_s0.history.dropLast
      ∧ (compileFilePost c3_s0 "import foo" c3_exec).1.history.length
          = c3_s0.history.length)
    ∧ (∀ s' act, fixCodePost c3_s0 c3_prep "fixed code" = .ok (s', act) →
        s'.history.dropLast = c3_s0.history.dropLast
          ∧ s'.history.length = c3_s0.history.length) :=
  c3_writes_target_last_entry c3_s0 c3_decision "t1" "import foo" c3_exec c3_prep
    "fixed code" (by intro e he; simp [c3_s0] at he)

/-- C4 counterexample: a Decision Engine response consisting of a fenced
code block (tagged `yaml`) is *not* short-circuited to `validate_code`:
it goes through YAML parsing and yields the `finish` decision. -/
theorem c4_nonpython_fence_not_shortcircuited :
    strContains c4_response "```" = true ∧
    mainDecisionExec c4_parse c4_response = .ok ⟨"finish", "done", []⟩ ∧
    (mainDecisionExec c4_parse c4_response).toOption.map Decision.tool
      ≠ some "validate_code" := by
  decide

/-- C4 (amended): only a fenced block tagged `python` short-circuits: for
every response containing ```python, the Decision Engine bypasses YAML
parsing and returns
`{tool: validate_code, params: {code_content: <the block>}}`. -/
theorem c4_python_fence_shortcircuits (parseYaml : String → Option DecisionDoc)
    (response : String) (h : strContains response "```python" = true) :
    mainDecisionExec parseYaml response
      = .ok ⟨"validate_code", "validate_code",
          [("code_content", extractPythonCode response)]⟩ := by
  obtain ⟨p₀, p₁, ps, hsp⟩ := strSplitOn_two_parts response "```python" (by decide) h
  unfold mainDecisionExec extractPythonCode
  rw [hsp]

/-- C4 witness: the short-circuit at a concrete python-fenced response. -/
theorem c4_python_fence_shortcircuits_witness :
    strContains "```python\nprint(1)\n```" "```python" = true ∧
    mainDecisionExec (fun _ => none) "```python\nprint(1)\n```"
      = .ok ⟨"validate_code", "validate_code",
          [("code_content", extractPythonCode "```python\nprint(1)\n```")]⟩ :=
  ⟨by decide, c4_python_fence_shortcircuits (fun _ => none) "```python\nprint(1)\n```" (by decide)⟩

/-- C5 counterexample: a plan response with extractable YAML but invalid
structure (missing `operations`) is *not* retried: the node fails fatally
after a single LLM call (trace `[true]`, the one cached attempt). -/
theorem c5_invalid_structure_no_retry :
    analyzeExec (fun _ => c5_response) c5_parse "a\nb" DEFAULT_RETRIES
      = (.error "Operations are missing", [true]) ∧
    (analyzeExec (fun _ => c5_response) c5_parse "a\nb" DEFAULT_RETRIES).2.length = 1 := by
  decide

/-- C5 (amended): the retry budget applies only when no YAML content can be
extracted: if no response carries a code fence, the plan step makes exactly
three LLM calls — the first with the cache enabled, both retries bypassing
it — and then fails fatally. -/
theorem c5_retry_only_without_yaml (llm : Nat → String)
    (parsePlan : String → Option PlanDoc) (fc : String)
    (h : ∀ n, strContains (llm n) "```" = false) :
    analyzeExec llm parsePlan fc DEFAULT_RETRIES
      = (.error "No YAML object found in response", [true, false, false]) := by
  have ha : ∀ n, analyzeAttempt parsePlan (strSplitOn fc "\n").length (llm n) = none := by
    intro n
    unfold analyzeAttempt
    rw [extractYaml_of_no_fence (llm n) (h n) false]
    simp
  show analyzeExec llm parsePlan fc (1 + 1 + 0) = _
  simp only [analyzeExec, ha]
  rfl

/-- C5 witness: the retry trace on a concrete fence-free oracle. -/
theorem c5_retry_only_without_yaml_witness :
    analyzeExec (fun _ => "no code fences here") (fun _ => none) "x" DEFAULT_RETRIES
      = (.error "No YAML object found in response", [true, false, false]) :=
  c5_retry_only_without_yaml (fun _ => "no code fences here") (fun _ => none) "x"
    (fun _ => (by decide : strContains "no code fences here" "```" = false))

/-- C6: the apply step sorts the planned operations by `start_line`
descending (the sorted list is ordered by `≥` on `start_line` for every
input), so `{5,5,X}` is applied before `{2,3,Y}`; on the six-line file the
bottom-to-top application replaces original line 5 with `X` and original
lines 2–3 with `Y` — each operation lands at its original offsets — while
the ascending order would shift the second edit. -/
theorem c6_sort_descending_apply_bottom_up :
    (∀ ops : List EditOp,
      List.Sorted (fun a b => b.start_line ≤ a.start_line) (sortOpsDesc ops))
    ∧ sortOpsDesc [⟨5, 5, "X"⟩, ⟨2, 3, "Y"⟩] = [⟨5, 5, "X"⟩, ⟨2, 3, "Y"⟩]
    ∧ sortOpsDesc [⟨2, 3, "Y"⟩, ⟨5, 5, "X"⟩] = [⟨5, 5, "X"⟩, ⟨2, 3, "Y"⟩]
    ∧ replaceLines c6_file 5 5 "X" = ["l1", "l2", "l3", "l4", "X", "l6"]
    ∧ replaceLines (replaceLines c6_file 5 5 "X") 2 3 "Y" = ["l1", "Y", "l4", "X", "l6"]
    ∧ applyEdit c6_file [⟨5, 5, "X"⟩, ⟨2, 3, "Y"⟩] = ["l1", "Y", "l4", "X", "l6"]
    ∧ applyEdit c6_file [⟨2, 3, "Y"⟩, ⟨5, 5, "X"⟩] = ["l1", "Y", "l4", "X", "l6"]
    ∧ applyOps c6_file [⟨2, 3, "Y"⟩, ⟨5, 5, "X"⟩] ≠ applyEdit c6_file [⟨5, 5, "X"⟩, ⟨2, 3, "Y"⟩] := by
  refine ⟨fun ops => ?_, by decide, by decide, by decide, by decide, by decide, by decide, by decide⟩
  haveI ht : IsTotal EditOp (fun a b => b.start_line ≤ a.start_line) :=
    ⟨fun a b => Nat.le_total b.start_line a.start_line⟩
  haveI htr : IsTrans EditOp (fun a b => b.start_line ≤ a.start_line) :=
    ⟨fun _ _ _ hab hbc => Nat.le_trans hbc hab⟩
  exact List.sorted_insertionSort _ ops

/-- C7 counterexample: an `ImportError` whose message mentions `qt` is
*fatal* (`success = false` with an `Import error:` payload, not a full
trace), because the import-error keyword list does not include `qt`. -/
theorem c7_qt_import_error_fatal :
    strContains (strToLower "No module named qt") "qt" = true ∧
    validate_code (.importError "No module named qt")
      = ("Import error: No module named qt", false) := by
  decide

/-- C7 (amended): validation classifies outcomes as follows — success on a
clean run; an `ImportError` is a success-with-caveat exactly when its
message mentions matplotlib, display, gui or tkinter, and otherwise fatal
with payload `Import error: <msg>` (no trace); any other exception is a
success-with-caveat exactly when its message mentions display, gui, x11,
tkinter, qt or show, and otherwise fatal with the full traceback as
payload; a `SyntaxError` is always fatal. -/
theorem c7_validation_classification (l c : Int) (msg m tr : String) :
    validate_code .ok = ("Code syntax looks valid.", true)
    ∧ (validate_code (.syntaxError l c msg)).2 = false
    ∧ ((validate_code (.importError m)).2 = true
        ↔ ∃ lib ∈ importWarnLibs, strContains (strToLower m) lib = true)
    ∧ ((validate_code (.otherError m tr)).2 = true
        ↔ ∃ t ∈ displayWarnTerms, strContains (strToLower m) t = true)
    ∧ validate_code (.importError m)
        = (if importWarnLibs.any (fun lib => strContains (strToLower m) lib) then
            ("Code syntax looks valid (with display-related import warnings).", true)
          else ("Import error: " ++ m, false))
    ∧ validate_code (.otherError m tr)
        = (if displayWarnTerms.any (fun t => strContains (strToLower m) t) then
            ("Code syntax looks valid (with display-related warnings).", true)
          else ("Code has runtime errors: " ++ tr, false)) := by
  refine ⟨rfl, rfl, ?_, ?_, rfl, rfl⟩
  · have hb : (validate_code (.importError m)).2
        = importWarnLibs.any (fun lib => strContains (strToLower m) lib) := by
      cases hcond : importWarnLibs.any (fun lib => strContains (strToLower m) lib) with
      | true => simp [validate_code, hcond]
      | false => simp [validate_code, hcond]
    rw [hb, List.any_eq_true]
  · have hb : (validate_code (.otherError m tr)).2
        = displayWarnTerms.any (fun t => strContains (strToLower m) t) := by
      cases hcond : displayWarnTerms.any (fun t => strContains (strToLower m) t) with
      | true => simp [validate_code, hcond]
      | false => simp [validate_code, hcond]
    rw [hb, List.any_eq_true]

/-- C8: an invalid regex query (one the compile oracle rejects) makes
`grep_search` return the empty match list with `success = false`, for
every filesystem, gitignore and include/exclude configuration — the
`re.error` is caught, not propagated. -/
theorem c8_invalid_regex_empty_failure (reCompile : String → Bool → Option RePattern)
    (files : List FSFile) (gitignore query : String) (cs : Bool)
    (inc exc : Option String) (h : reCompile query (!cs) = none) :
    grep_search reCompile files gitignore query cs inc exc = ([], false) := by
  unfold grep_search
  rw [h]

/-- C8 witness: a concrete oracle rejecting the pattern. -/
theorem c8_invalid_regex_empty_failure_witness :
    grep_search (fun _ _ => none) [] "" "[" true none none = ([], false) :=
  c8_invalid_regex_empty_failure (fun _ _ => none) [] "" "[" true none none rfl

/-- C9: with caching enabled, a second call with the same prompt and model
returns the first call's response from the cache without invoking the LLM;
a call with the same prompt but a different model misses that entry (the
key is the exact model plus prompt) and invokes the LLM. -/
theorem c9_cache_hit_and_model_separation (llm : String → String → String)
    (cache : List (String × String)) (p m₁ m₂ : String)
    (h₁ : lookupCache cache (cacheKey m₁ p) = none)
    (h₂ : lookupCache cache (cacheKey m₂ p) = none) (hm : m₁ ≠ m₂) :
    (call_llm llm ((call_llm llm cache p true m₁).2.1) p true m₁).1
        = (call_llm llm cache p true m₁).1 ∧
    (call_llm llm ((call_llm llm cache p true m₁).2.1) p true m₁).2.2 = false ∧
    (call_llm llm ((call_llm llm cache p true m₁).2.1) p true m₂).2.2 = true := by
  have hk : cacheKey m₁ p ≠ cacheKey m₂ p := fun h => hm (cacheKey_inj m₁ m₂ p h)
  simp only [call_llm, h₁, if_true]
  refine ⟨?_, ?_, ?_⟩
  · simp [lookupCache]
  · simp [lookupCache]
  · rw [lookupCache, if_neg hk, h₂]

/-- C9 witness: the cache behavior at a concrete LLM, prompt and models. -/
theorem c9_cache_hit_and_model_separation_witness :
    (call_llm (fun _ _ => "pong") ((call_llm (fun _ _ => "pong") [] "p" true "a").2.1)
          "p" true "a").1
        = (call_llm (fun _ _ => "pong") [] "p" true "a").1 ∧
    (call_llm (fun _ _ => "pong") ((call_llm (fun _ _ => "pong") [] "p" true "a").2.1)
          "p" true "a").2.2 = false ∧
    (call_llm (fun _ _ => "pong") ((call_llm (fun _ _ => "pong") [] "p" true "a").2.1)
          "p" true "b").2.2 = true :=
  c9_cache_hit_and_model_separation (fun _ _ => "pong") [] "p" "a" "b" rfl rfl (by decide)

/-- C10: when the Decision Engine response fails to parse, the error is
raised in `exec`, before `post` appends anything: the decision round
returns the error and the history is exactly what it was. -/
theorem c10_parse_failure_leaves_history (parseYaml : String → Option DecisionDoc)
    (s : Shared) (resp ts e : String)
    (h : mainDecisionExec parseYaml resp = .error e) :
    (mainDecisionStep parseYaml s resp ts).1.history = s.history
    ∧ (mainDecisionStep parseYaml s resp ts).2 = .error e := by
  unfold mainDecisionStep
  rw [h]
  exact ⟨rfl, rfl⟩

/-- C10 witness: a concrete unparsable response leaves the history empty. -/
theorem c10_parse_failure_leaves_history_witness :
    (mainDecisionStep (fun _ => none) ⟨"q", "w", []⟩ "hello" "t").1.history
        = (⟨"q", "w", []⟩ : Shared).history
    ∧ (mainDecisionStep (fun _ => none) ⟨"q", "w", []⟩ "hello" "t").2
        = .error "Invalid YAML format in LLM response" :=
  c10_parse_failure_leaves_history (fun _ => none) ⟨"q", "w", []⟩ "hello" "t"
    "Invalid YAML format in LLM response" (by decide)
